import Mathlib

set_option autoImplicit false

/-!
Shallow embedding of the saltlick-cli keychain subsystem (src/keychain.rs,
src/error.rs).

The keychain operates on a single directory; we model that directory's
contents as a finite association list from filename to file content.  The
external key codec (the `saltlick` crate's `PublicKey`/`SecretKey` with
`to_file`/`from_file`) is opaque to the keychain: we model key values as
natural numbers and a serialized key file as a tagged payload, so that
serialization round-trips and a wrong-format file fails to deserialize,
exactly the interface the keychain code relies on.  I/O errors
(`std::io::Error`, `SaltlickKeyIoError`) are modelled as natural-number
codes.  To make failure paths of `fs::remove_file` and `to_file`
expressible, the filesystem state carries per-path fault tables
(`removeErr`, `writeErr`) and a directory-listing fault (`listErr`); a path
absent from a fault table behaves normally.  Only regular files appear in
`files` (the Rust code's `is_file` checks regular-file-ness; non-regular
directory entries never satisfy it).
-/

deriving instance DecidableEq for Except

namespace Saltlick

/-- Content of a regular file in the keychain directory: a serialized public
key, a serialized secret key, or unrelated/corrupt bytes. -/
inductive FileData where
  | pubData (k : Nat)
  | secData (k : Nat)
  | other
deriving DecidableEq, Repr

/-- First-match association lookup by filename. -/
def assocFind {β : Type} (l : List (String × β)) (p : String) : Option β :=
  match l with
  | [] => none
  | (q, d) :: rest => if q = p then some d else assocFind rest p

/-- Remove every binding of key `p`. -/
def eraseKey {β : Type} (l : List (String × β)) (p : String) : List (String × β) :=
  match l with
  | [] => []
  | (q, d) :: rest => if q = p then eraseKey rest p else (q, d) :: eraseKey rest p

/-- State of the keychain directory: its regular files plus fault tables
driving the modelled I/O failures. -/
structure FS where
  files : List (String × FileData)
  removeErr : List (String × Nat)
  writeErr : List (String × Nat)
  listErr : Option Nat
deriving DecidableEq, Repr

/-- Rust `Path::is_file`: the path exists as a regular file. -/
def FS.isFile (fs : FS) (p : String) : Bool :=
  (assocFind fs.files p).isSome

/-- Rust `fs::remove_file`: fails on a missing file (code 2) or when the fault
table injects an error; otherwise deletes the binding. -/
def FS.removeFile (fs : FS) (p : String) : Except Nat FS :=
  if fs.isFile p then
    match assocFind fs.removeErr p with
    | some e => .error e
    | none => .ok { fs with files := eraseKey fs.files p }
  else .error 2

/-- Write (create or overwrite) a regular file, unless the fault table
injects an error. -/
def FS.writeFile (fs : FS) (p : String) (d : FileData) : Except Nat FS :=
  match assocFind fs.writeErr p with
  | some e => .error e
  | none => .ok { fs with files := (p, d) :: eraseKey fs.files p }

/-- Model of `PublicKey::to_file`. -/
def pubKeyToFile (fs : FS) (p : String) (k : Nat) : Except Nat FS :=
  fs.writeFile p (.pubData k)

/-- Model of `SecretKey::to_file`. -/
def secKeyToFile (fs : FS) (p : String) (k : Nat) : Except Nat FS :=
  fs.writeFile p (.secData k)

/-- Model of `PublicKey::from_file`: deserialization fails (code 1) on non-public-key
content, and with code 2 when the file is absent. -/
def pubKeyFromFile (fs : FS) (p : String) : Except Nat Nat :=
  match assocFind fs.files p with
  | some (.pubData k) => .ok k
  | some _ => .error 1
  | none => .error 2

/-- Model of `SecretKey::from_file`. -/
def secKeyFromFile (fs : FS) (p : String) : Except Nat Nat :=
  match assocFind fs.files p with
  | some (.secData k) => .ok k
  | some _ => .error 1
  | none => .error 2

/-- Error type `InvalidKeypairName` from error.rs. -/
inductive InvalidKeypairName where
  | BadChar (c : Char)
  | Empty
deriving DecidableEq, Repr

/-- Error type `KeychainError` from error.rs.  `BadKeychainDir`'s path component is the
directory identity, which the embedding abstracts away (the `FS` value *is*
that one directory); underlying `io::Error`/`SaltlickKeyIoError` values are
the natural-number codes. -/
inductive KeychainError where
  | BadKeychainDir (error : Nat)
  | DeleteError (name : String) (error : Nat)
  | InvalidName (name : String) (error : InvalidKeypairName)
  | KeychainOpenError (error : Nat)
  | KeypairAlreadyExists (name : String)
  | KeypairNotFound (name : String)
  | LoadError (name : String) (error : Nat)
  | PublicKeyNotFound
  | SaveError (name : String) (error : Nat)
deriving DecidableEq, Repr

/-- Inner predicate `is_invalid_char` of `KeypairName::new`. -/
def is_invalid_char (c : Char) : Bool :=
  if ('a' ≤ c ∧ c ≤ 'z') ∨ ('A' ≤ c ∧ c ≤ 'Z') ∨ ('0' ≤ c ∧ c ≤ '9')
      ∨ c = '-' ∨ c = '_' ∨ c = '.' then false else true

/-- Pre-verified name for keypairs (`KeypairName`). -/
structure KeypairName where
  raw : String
deriving DecidableEq, Repr

/-- Function `KeypairName::public_filename`: `format!("{}.pub", name)`. -/
def KeypairName.public_filename (n : KeypairName) : String :=
  n.raw ++ ".pub"

/-- Function `KeypairName::secret_filename`: `format!("{}.sec", name)`. -/
def KeypairName.secret_filename (n : KeypairName) : String :=
  n.raw ++ ".sec"

/-- Validation `KeypairName::new`: rejects the empty string, then the first character
(left to right) failing `is_invalid_char`'s whitelist. -/
def KeypairName.new (name : String) : Except InvalidKeypairName KeypairName :=
  if name.isEmpty then .error .Empty
  else
    match name.toList.find? (fun c => is_invalid_char c) with
    | some c => .error (.BadChar c)
    | none => .ok ⟨name⟩

/-- Public/secret keypair with an associated name (`Keypair`). -/
structure Keypair where
  name : KeypairName
  public : Nat
  secret : Nat
deriving DecidableEq, Repr

/-- Helper `Keypair::parse_keypair_name`. -/
def parse_keypair_name (name : String) : Except KeychainError KeypairName :=
  match KeypairName.new name with
  | .error e => .error (.InvalidName name e)
  | .ok n => .ok n

/-- Operation `Keypair::load`. -/
def Keypair.load (fs : FS) (name : String) : Except KeychainError Keypair :=
  match parse_keypair_name name with
  | .error e => .error e
  | .ok n =>
    let public_path := n.public_filename
    let secret_path := n.secret_filename
    if fs.isFile public_path && fs.isFile secret_path then
      match pubKeyFromFile fs public_path with
      | .error e => .error (.LoadError n.raw e)
      | .ok pub =>
        match secKeyFromFile fs secret_path with
        | .error e => .error (.LoadError n.raw e)
        | .ok sec => .ok ⟨n, pub, sec⟩
    else .error (.KeypairNotFound n.raw)

/-- Operation `Keypair::save`: the result together with the directory state afterwards
(the Rust function mutates the filesystem; the conflict check precedes both
writes, and the public file is written before the secret file). -/
def Keypair.save (kp : Keypair) (fs : FS) : Except KeychainError Unit × FS :=
  let public_path := kp.name.public_filename
  let secret_path := kp.name.secret_filename
  if fs.isFile public_path || fs.isFile secret_path then
    (.error (.KeypairAlreadyExists kp.name.raw), fs)
  else
    match pubKeyToFile fs public_path kp.public with
    | .error e => (.error (.SaveError kp.name.raw e), fs)
    | .ok fs1 =>
      match secKeyToFile fs1 secret_path kp.secret with
      | .error e => (.error (.SaveError kp.name.raw e), fs1)
      | .ok fs2 => (.ok (), fs2)

/-- Operation `Keypair::delete`: both removals are computed, then joined with
`Result::and` (which keeps the public-side error when both fail). -/
def Keypair.delete (kp : Keypair) (fs : FS) : Except KeychainError Unit × FS :=
  let public_path := kp.name.public_filename
  let secret_path := kp.name.secret_filename
  let pr : Except Nat Unit × FS :=
    if fs.isFile public_path then
      match fs.removeFile public_path with
      | .ok fs' => (.ok (), fs')
      | .error e => (.error e, fs)
    else (.ok (), fs)
  let sr : Except Nat Unit × FS :=
    if pr.2.isFile secret_path then
      match pr.2.removeFile secret_path with
      | .ok fs' => (.ok (), fs')
      | .error e => (.error e, pr.2)
    else (.ok (), pr.2)
  let combined : Except Nat Unit :=
    match pr.1 with
    | .error e => .error e
    | .ok _ => sr.1
  (combined.mapError (fun e => KeychainError.DeleteError kp.name.raw e), sr.2)

/-- Facade operation `Keychain::create`. -/
def Keychain.create (fs : FS) (name : String) (pub sec : Nat) :
    Except KeychainError Unit × FS :=
  match parse_keypair_name name with
  | .error e => (.error e, fs)
  | .ok n => Keypair.save ⟨n, pub, sec⟩ fs

/-- Facade operation `Keychain::get`. -/
def Keychain.get (fs : FS) (name : String) : Except KeychainError Keypair :=
  Keypair.load fs name

/-- Facade operation `Keychain::remove`: `get` then `delete`. -/
def Keychain.remove (fs : FS) (name : String) : Except KeychainError Unit × FS :=
  match Keychain.get fs name with
  | .error e => (.error e, fs)
  | .ok kp => Keypair.delete kp fs

/-- Facade operation `Keychain::rename`: `get(old)`, `create(new, keys)`, `remove(old)`, in
that order, short-circuiting on the first error. -/
def Keychain.rename (fs : FS) (old_name new_name : String) :
    Except KeychainError Unit × FS :=
  match Keychain.get fs old_name with
  | .error e => (.error e, fs)
  | .ok old =>
    match Keychain.create fs new_name old.public old.secret with
    | (.error e, fs1) => (.error e, fs1)
    | (.ok _, fs1) => Keychain.remove fs1 old_name

/-- Rust `Path::file_stem`/`extension` on a plain file name: split at the
last `.`, except that a `.` in first position (or no `.` at all) yields no
extension and the whole name as stem. -/
def rustSplitName (s : String) : String × Option String :=
  let cs := s.toList
  let extRev := cs.reverse.takeWhile (fun c => c != '.')
  if extRev.length + 1 < cs.length then
    (String.mk (cs.take (cs.length - extRev.length - 1)), some (String.mk extRev.reverse))
  else
    (s, none)

/-- Helper `KeychainIter::ext_or_empty`. -/
def ext_or_empty (s : String) : String :=
  ((rustSplitName s).2).getD ("")

/-- Rust `Path::file_stem` (total on the non-empty names read_dir yields). -/
def file_stem (s : String) : String :=
  (rustSplitName s).1

/-- The deduplicated candidate-name set `KeychainIter::new` collects: stems
of directory entries whose extension is `pub` or `sec`.  The Rust code
collects into a `HashSet`, so its order is unspecified; `dedup` fixes one
representative order with each name occurring once. -/
def candidateNames (fs : FS) : List String :=
  (((fs.files.map Prod.fst).filter
      (fun p => ext_or_empty p == "pub" || ext_or_empty p == "sec")).map file_stem).dedup

/-- Constructor `KeychainIter::new`: fails with `BadKeychainDir` when the directory is
not listable, else captures the candidate names. -/
def KeychainIter.new (fs : FS) : Except KeychainError (List String) :=
  match fs.listErr with
  | some e => .error (.BadKeychainDir e)
  | none => .ok (candidateNames fs)

/-- The sequence of keypairs `KeychainIter`'s `next` yields from the given
candidate names: a load is attempted per name and failures are skipped. -/
def keypairsOf (fs : FS) (names : List String) : List Keypair :=
  names.filterMap (fun n => (Keypair.load fs n).toOption)

/-- Everything a full iteration over the keychain yields. -/
def keychainList (fs : FS) : List Keypair :=
  keypairsOf fs (candidateNames fs)

/-- Facade operation `Keychain::find`: first yielded keypair whose public key matches. -/
def Keychain.find (fs : FS) (pub : Nat) : Except KeychainError Keypair :=
  match KeychainIter.new fs with
  | .error e => .error e
  | .ok names =>
    match (keypairsOf fs names).find? (fun kp => kp.public == pub) with
    | some kp => .ok kp
    | none => .error .PublicKeyNotFound

/-- The spec's character class `[A-Za-z0-9\-_.]`, written from the spec text
(for comparing the source's validation against the specified one). -/
def specAllowedChar (c : Char) : Bool :=
  if ('A' ≤ c ∧ c ≤ 'Z') ∨ ('a' ≤ c ∧ c ≤ 'z') ∨ ('0' ≤ c ∧ c ≤ '9')
      ∨ c = '-' ∨ c = '_' ∨ c = '.' then true else false

/-- Concrete directory states used by the witness theorems. -/
def fsEmpty : FS := ⟨[], [], [], none⟩

def fsA : FS := ⟨[("a.pub", FileData.pubData 1)], [], [], none⟩

def fsAB : FS := ⟨[("a.sec", FileData.secData 2), ("a.pub", FileData.pubData 1)], [], [], none⟩

def fsW : FS := ⟨[("a.pub", FileData.pubData 1), ("a.sec", FileData.secData 2),
  ("b.pub", FileData.pubData 3), ("b.sec", FileData.secData 4)], [], [], none⟩

def fsrm : FS := ⟨[("a.pub", FileData.pubData 1), ("a.sec", FileData.secData 2)],
  [("a.pub", 13)], [], none⟩

def fsrm2 : FS := ⟨[("a.pub", FileData.pubData 1), ("a.sec", FileData.secData 2)],
  [("a.pub", 13), ("a.sec", 14)], [], none⟩

theorem assocFind_eraseKey {β : Type} (l : List (String × β)) (p q : String) :
    assocFind (eraseKey l p) q = if q = p then none else assocFind l q := by
  induction l with
  | nil => simp [eraseKey, assocFind]
  | cons hd tl ih =>
    obtain ⟨a, d⟩ := hd
    by_cases hap : a = p <;> by_cases haq : a = q <;>
      simp_all [eraseKey, assocFind]

theorem pubdata : (".pub" : String).data = ['.','p','u','b'] := rfl

theorem secdata : (".sec" : String).data = ['.','s','e','c'] := rfl

theorem takeWhile_pub (r : List Char) :
    List.takeWhile (fun c => c != '.') ('b' :: 'u' :: 'p' :: '.' :: r) = ['b','u','p'] := by
  simp [List.takeWhile_cons]

theorem rustSplitName_pub (m : String) (hm : m ≠ "") :
    rustSplitName (m ++ ".pub") = (m, some ("pub")) := by
  have hd : m.data ≠ [] := fun h => hm (String.ext (h.trans rfl))
  have hlen : 0 < m.data.length := List.length_pos.mpr hd
  have hcs : (m ++ ".pub").toList = m.data ++ ['.', 'p', 'u', 'b'] := by
    simp [String.toList, String.data_append, pubdata]
  have hrev : (m.data ++ ['.', 'p', 'u', 'b']).reverse
      = 'b' :: 'u' :: 'p' :: '.' :: m.data.reverse := by
    simp
  simp only [rustSplitName]
  rw [hcs, hrev, takeWhile_pub]
  rw [if_pos]
  · have h4 : (m.data ++ ['.', 'p', 'u', 'b']).length - (['b', 'u', 'p'] : List Char).length - 1
        = m.data.length := by
      simp [List.length_append]
    rw [h4, List.take_left]
    rfl
  · simp only [List.length_append, List.length_cons, List.length_nil]
    omega

theorem takeWhile_sec (r : List Char) :
    List.takeWhile (fun c => c != '.') ('c' :: 'e' :: 's' :: '.' :: r) = ['c','e','s'] := by
  simp [List.takeWhile_cons]

theorem rustSplitName_sec (m : String) (hm : m ≠ "") :
    rustSplitName (m ++ ".sec") = (m, some ("sec")) := by
  have hd : m.data ≠ [] := fun h => hm (String.ext (h.trans rfl))
  have hlen : 0 < m.data.length := List.length_pos.mpr hd
  have hcs : (m ++ ".sec").toList = m.data ++ ['.', 's', 'e', 'c'] := by
    simp [String.toList, String.data_append, secdata]
  have hrev : (m.data ++ ['.', 's', 'e', 'c']).reverse
      = 'c' :: 'e' :: 's' :: '.' :: m.data.reverse := by
    simp
  simp only [rustSplitName]
  rw [hcs, hrev, takeWhile_sec]
  rw [if_pos]
  · have h4 : (m.data ++ ['.', 's', 'e', 'c']).length - (['c', 'e', 's'] : List Char).length - 1
        = m.data.length := by
      simp [List.length_append]
    rw [h4, List.take_left]
    rfl
  · simp only [List.length_append, List.length_cons, List.length_nil]
    omega

theorem appendRightCancel {a b s : String} (h : a ++ s = b ++ s) : a = b := by
  apply String.ext
  have h2 := congrArg String.data h
  simp only [String.data_append] at h2
  exact List.append_cancel_right h2

theorem pubfile_ne_secfile (a b : String) : a ++ ".pub" ≠ b ++ ".sec" := by
  intro h
  have h2 := congrArg (fun s => s.data.reverse) h
  simp only [String.data_append, pubdata, secdata, List.reverse_append] at h2
  simp at h2

theorem parse_ok (name : String) (n : KeypairName)
    (h : parse_keypair_name name = .ok n) : n.raw = name ∧ name ≠ "" := by
  unfold parse_keypair_name KeypairName.new at h
  by_cases he : name.isEmpty
  · simp [he] at h
  · constructor
    · simp only [he] at h
      cases hf : name.toList.find? (fun c => is_invalid_char c) with
      | some c => rw [if_neg (by simp [he]), hf] at h; simp at h
      | none => rw [if_neg (by simp [he]), hf] at h; simp at h; rw [← h]
    · intro hcon; subst hcon; exact absurd he (by decide)

theorem writeFile_ok {fs fs' : FS} {p : String} {d : FileData}
    (h : fs.writeFile p d = .ok fs') :
    fs' = { fs with files := (p, d) :: eraseKey fs.files p } := by
  unfold FS.writeFile at h
  cases hw : assocFind fs.writeErr p with
  | some e => rw [hw] at h; simp at h
  | none => rw [hw] at h; simp at h; exact h.symm

theorem assocFind_writeFile {fs fs' : FS} {p : String} {d : FileData}
    (h : fs.writeFile p d = .ok fs') (q : String) :
    assocFind fs'.files q = if q = p then some d else assocFind fs.files q := by
  rw [writeFile_ok h]
  simp only [assocFind]
  by_cases hpq : p = q
  · subst hpq; simp
  · rw [if_neg hpq, assocFind_eraseKey, if_neg (Ne.symm hpq), if_neg (Ne.symm hpq)]

theorem removeFile_ok {fs fs' : FS} {p : String}
    (h : fs.removeFile p = .ok fs') :
    fs' = { fs with files := eraseKey fs.files p } ∧ fs.isFile p = true ∧
      assocFind fs.removeErr p = none := by
  unfold FS.removeFile at h
  by_cases hf : fs.isFile p
  · cases hr : assocFind fs.removeErr p with
    | some e => rw [if_pos hf, hr] at h; simp at h
    | none => rw [if_pos hf, hr] at h; simp at h; exact ⟨h.symm, hf, rfl⟩
  · rw [if_neg hf] at h; simp at h

theorem removeFile_errchar {fs : FS} {p : String} {e : Nat}
    (h : fs.removeFile p = .error e) (hf : fs.isFile p = true) :
    assocFind fs.removeErr p = some e := by
  unfold FS.removeFile at h
  rw [if_pos hf] at h
  cases hr : assocFind fs.removeErr p with
  | some e2 => rw [hr] at h; simp at h; rw [h]
  | none => rw [hr] at h; simp at h

theorem save_ok_char {kp : Keypair} {fs fs' : FS}
    (h : kp.save fs = (.ok (), fs')) :
    fs.isFile kp.name.public_filename = false ∧
    fs.isFile kp.name.secret_filename = false ∧
    (∀ q, assocFind fs'.files q =
      if q = kp.name.secret_filename then some (.secData kp.secret)
      else if q = kp.name.public_filename then some (.pubData kp.public)
      else assocFind fs.files q) ∧
    fs'.removeErr = fs.removeErr ∧ fs'.writeErr = fs.writeErr ∧ fs'.listErr = fs.listErr := by
  unfold Keypair.save at h
  by_cases hc : (fs.isFile kp.name.public_filename || fs.isFile kp.name.secret_filename) = true
  · rw [if_pos hc] at h; simp at h
  · rw [if_neg hc] at h
    have hcc := hc
    rw [Bool.or_eq_true] at hcc
    push_neg at hcc
    cases hw1 : pubKeyToFile fs kp.name.public_filename kp.public with
    | error e => rw [hw1] at h; simp at h
    | ok fs1 =>
      rw [hw1] at h
      simp only [] at h
      cases hw2 : secKeyToFile fs1 kp.name.secret_filename kp.secret with
      | error e => rw [hw2] at h; simp at h
      | ok fs2 =>
        rw [hw2] at h
        simp at h
        subst h
        refine ⟨by simpa using hcc.1, by simpa using hcc.2, ?_, ?_, ?_, ?_⟩
        · intro q
          rw [assocFind_writeFile hw2 q, assocFind_writeFile hw1 q]
        · rw [(writeFile_ok hw2), (writeFile_ok hw1)]
        · rw [(writeFile_ok hw2), (writeFile_ok hw1)]
        · rw [(writeFile_ok hw2), (writeFile_ok hw1)]

theorem load_eval {fs : FS} {name : String} {n : KeypairName}
    (hp : parse_keypair_name name = .ok n) :
    Keypair.load fs name =
      if fs.isFile n.public_filename && fs.isFile n.secret_filename then
        match pubKeyFromFile fs n.public_filename with
        | .error e => .error (.LoadError n.raw e)
        | .ok pub =>
          match secKeyFromFile fs n.secret_filename with
          | .error e => .error (.LoadError n.raw e)
          | .ok sec => .ok ⟨n, pub, sec⟩
      else .error (.KeypairNotFound n.raw) := by
  unfold Keypair.load
  rw [hp]

theorem load_ok_char {fs : FS} {name : String} {kp : Keypair}
    (h : Keypair.load fs name = .ok kp) :
    parse_keypair_name name = .ok kp.name ∧ kp.name.raw = name ∧
    fs.isFile kp.name.public_filename = true ∧
    fs.isFile kp.name.secret_filename = true ∧
    pubKeyFromFile fs kp.name.public_filename = .ok kp.public ∧
    secKeyFromFile fs kp.name.secret_filename = .ok kp.secret := by
  unfold Keypair.load at h
  cases hp : parse_keypair_name name with
  | error e => rw [hp] at h; simp at h
  | ok n =>
    rw [hp] at h
    simp only [] at h
    by_cases hb : (fs.isFile n.public_filename && fs.isFile n.secret_filename) = true
    · rw [if_pos hb] at h
      rw [Bool.and_eq_true] at hb
      cases hpub : pubKeyFromFile fs n.public_filename with
      | error e => rw [hpub] at h; simp at h
      | ok p =>
        rw [hpub] at h
        simp only [] at h
        cases hsec : secKeyFromFile fs n.secret_filename with
        | error e => rw [hsec] at h; simp at h
        | ok s =>
          rw [hsec] at h
          simp only [] at h
          injection h with h
          subst h
          exact ⟨rfl, (parse_ok _ _ hp).1, hb.1, hb.2, hpub, hsec⟩
    · rw [if_neg hb] at h; simp at h

theorem save_conflict {kp : Keypair} {fs : FS}
    (h : fs.isFile kp.name.public_filename = true ∨ fs.isFile kp.name.secret_filename = true) :
    kp.save fs = (.error (.KeypairAlreadyExists kp.name.raw), fs) := by
  rcases h with h | h <;> simp [Keypair.save, h]

theorem create_ok_char {fs fs' : FS} {name : String} {pub sec : Nat}
    (h : Keychain.create fs name pub sec = (.ok (), fs')) :
    ∃ n, parse_keypair_name name = .ok n ∧ n.raw = name ∧
      (⟨n, pub, sec⟩ : Keypair).save fs = (.ok (), fs') := by
  unfold Keychain.create at h
  cases hp : parse_keypair_name name with
  | error e => rw [hp] at h; simp at h
  | ok n =>
    rw [hp] at h
    exact ⟨n, rfl, (parse_ok _ _ hp).1, h⟩

theorem save_error_char {kp : Keypair} {fs fs1 : FS} {e : KeychainError}
    (h : kp.save fs = (.error e, fs1)) :
    fs1 = fs ∨
    (fs.isFile kp.name.public_filename = false ∧ fs.isFile kp.name.secret_filename = false ∧
     fs.writeFile kp.name.public_filename (.pubData kp.public) = .ok fs1) := by
  unfold Keypair.save at h
  by_cases hc : (fs.isFile kp.name.public_filename || fs.isFile kp.name.secret_filename) = true
  · rw [if_pos hc] at h
    simp only [Prod.mk.injEq] at h
    exact Or.inl h.2.symm
  · rw [if_neg hc] at h
    have hcc : fs.isFile kp.name.public_filename = false ∧
        fs.isFile kp.name.secret_filename = false := by
      constructor <;> [skip; skip] <;>
        { cases hb : fs.isFile kp.name.public_filename <;>
          cases hb2 : fs.isFile kp.name.secret_filename <;>
          simp_all }
    cases hw1 : pubKeyToFile fs kp.name.public_filename kp.public with
    | error e2 =>
      rw [hw1] at h
      simp only [Prod.mk.injEq] at h
      exact Or.inl h.2.symm
    | ok fsa =>
      rw [hw1] at h
      simp only [] at h
      cases hw2 : secKeyToFile fsa kp.name.secret_filename kp.secret with
      | error e2 =>
        rw [hw2] at h
        simp only [Prod.mk.injEq] at h
        exact Or.inr ⟨hcc.1, hcc.2, h.2.symm ▸ hw1⟩
      | ok fsb => rw [hw2] at h; simp at h

theorem create_error_char {fs fs1 : FS} {name : String} {pub sec : Nat} {e : KeychainError}
    (h : Keychain.create fs name pub sec = (.error e, fs1)) :
    fs1 = fs ∨
    ∃ n, parse_keypair_name name = .ok n ∧
      fs.isFile n.public_filename = false ∧
      fs.isFile n.secret_filename = false ∧
      fs.writeFile n.public_filename (.pubData pub) = .ok fs1 := by
  unfold Keychain.create at h
  cases hp : parse_keypair_name name with
  | error e2 =>
    rw [hp] at h
    simp only [Prod.mk.injEq] at h
    exact Or.inl h.2.symm
  | ok n =>
    rw [hp] at h
    rcases save_error_char h with h1 | h2
    · exact Or.inl h1
    · exact Or.inr ⟨n, rfl, h2⟩

theorem save_conflict2 (n : KeypairName) (pub sec : Nat) (fs : FS)
    (h : fs.isFile n.public_filename = true ∨ fs.isFile n.secret_filename = true) :
    Keypair.save ⟨n, pub, sec⟩ fs = (.error (.KeypairAlreadyExists n.raw), fs) :=
  save_conflict h

theorem save_ok_char2 {n : KeypairName} {pub sec : Nat} {fs fs' : FS}
    (h : Keypair.save ⟨n, pub, sec⟩ fs = (.ok (), fs')) :
    fs.isFile n.public_filename = false ∧ fs.isFile n.secret_filename = false ∧
    (∀ q, assocFind fs'.files q =
      if q = n.secret_filename then some (.secData sec)
      else if q = n.public_filename then some (.pubData pub)
      else assocFind fs.files q) ∧
    fs'.removeErr = fs.removeErr ∧ fs'.writeErr = fs.writeErr ∧ fs'.listErr = fs.listErr :=
  save_ok_char h

/-- C1: a save whose public or secret target file already exists fails with
`KeypairAlreadyExists` before any write, leaving the filesystem untouched;
hence creating the same name twice fails the second time with the conflict
error and leaves the first pair's files (and the whole directory) unmodified. -/
theorem claim_C1 :
    (∀ (kp : Keypair) (fs : FS),
      fs.isFile kp.name.public_filename = true ∨ fs.isFile kp.name.secret_filename = true →
      kp.save fs = (.error (.KeypairAlreadyExists kp.name.raw), fs)) ∧
    (∀ (fs fs' : FS) (name : String) (pub sec pub2 sec2 : Nat),
      Keychain.create fs name pub sec = (.ok (), fs') →
      Keychain.create fs' name pub2 sec2 = (.error (.KeypairAlreadyExists name), fs')) := by
  constructor
  · intro kp fs h
    exact save_conflict h
  · intro fs fs' name pub sec pub2 sec2 h
    obtain ⟨n, hp, hraw, hsave⟩ := create_ok_char h
    obtain ⟨-, -, hlook, -, -, -⟩ := save_ok_char2 hsave
    have hppns : n.public_filename ≠ n.secret_filename := pubfile_ne_secfile n.raw n.raw
    have hpub : fs'.isFile n.public_filename = true := by
      unfold FS.isFile
      rw [hlook n.public_filename, if_neg hppns, if_pos rfl]
      rfl
    unfold Keychain.create
    rw [hp]
    simp only []
    rw [save_conflict2 n pub2 sec2 fs' (Or.inl hpub), hraw]

/-- C5: after a successful `create(name, pub, sec)`, `get(name)` returns a
keypair whose public and secret keys equal, by value, the ones created. -/
theorem claim_C5 : ∀ (fs fs' : FS) (name : String) (pub sec : Nat),
    Keychain.create fs name pub sec = (.ok (), fs') →
    Keychain.get fs' name = .ok ⟨⟨name⟩, pub, sec⟩ := by
  intro fs fs' name pub sec h
  obtain ⟨n, hp, hraw, hsave⟩ := create_ok_char h
  obtain ⟨-, -, hlook, -, -, -⟩ := save_ok_char2 hsave
  have hppns : n.public_filename ≠ n.secret_filename := pubfile_ne_secfile n.raw n.raw
  have hpe : assocFind fs'.files n.public_filename = some (.pubData pub) := by
    rw [hlook, if_neg hppns, if_pos rfl]
  have hse : assocFind fs'.files n.secret_filename = some (.secData sec) := by
    rw [hlook, if_pos rfl]
  have hpub : fs'.isFile n.public_filename = true := by
    unfold FS.isFile; rw [hpe]; rfl
  have hsec2 : fs'.isFile n.secret_filename = true := by
    unfold FS.isFile; rw [hse]; rfl
  unfold Keychain.get
  rw [load_eval hp, if_pos (by rw [hpub, hsec2]; rfl)]
  unfold pubKeyFromFile secKeyFromFile
  rw [hpe, hse]
  simp only []
  rw [← hraw]

/-- C4: `load` (and hence `get`) succeeds only when both derived files exist;
with both present each file is deserialized independently and a per-file
failure surfaces as `LoadError{name, underlying}`; a missing file yields
`KeypairNotFound{name}`. -/
theorem claim_C4 : ∀ (fs : FS) (name : String) (n : KeypairName),
    parse_keypair_name name = .ok n →
    (Keychain.get fs name = Keypair.load fs name) ∧
    (¬(fs.isFile n.public_filename = true ∧ fs.isFile n.secret_filename = true) →
      Keypair.load fs name = .error (.KeypairNotFound n.raw)) ∧
    (fs.isFile n.public_filename = true → fs.isFile n.secret_filename = true →
      (∀ e, pubKeyFromFile fs n.public_filename = .error e →
        Keypair.load fs name = .error (.LoadError n.raw e)) ∧
      (∀ p e, pubKeyFromFile fs n.public_filename = .ok p →
        secKeyFromFile fs n.secret_filename = .error e →
        Keypair.load fs name = .error (.LoadError n.raw e)) ∧
      (∀ p s, pubKeyFromFile fs n.public_filename = .ok p →
        secKeyFromFile fs n.secret_filename = .ok s →
        Keypair.load fs name = .ok ⟨n, p, s⟩)) := by
  intro fs name n hp
  refine ⟨rfl, ?_, ?_⟩
  · intro hmiss
    have hb : (fs.isFile n.public_filename && fs.isFile n.secret_filename) = false := by
      cases hA : fs.isFile n.public_filename <;>
        cases hB : fs.isFile n.secret_filename <;> simp_all
    rw [load_eval hp, hb]
    simp only [Bool.false_eq_true, if_false]
  · intro h1 h2
    refine ⟨?_, ?_, ?_⟩
    · intro e he
      rw [load_eval hp, if_pos (by rw [h1, h2]; rfl), he]
    · intro p e hpok he
      rw [load_eval hp, if_pos (by rw [h1, h2]; rfl), hpok]
      simp only []
      rw [he]
    · intro p s hpok hs
      rw [load_eval hp, if_pos (by rw [h1, h2]; rfl), hpok]
      simp only []
      rw [hs]

theorem isEmpty_false {s : String} (h : s ≠ "") : s.isEmpty = false := by
  cases he : s.isEmpty
  · rfl
  · exact absurd ((String.isEmpty_iff s).mp he) h

theorem is_invalid_eq (c : Char) : is_invalid_char c = !(specAllowedChar c) := by
  unfold is_invalid_char specAllowedChar
  by_cases h : ('a' ≤ c ∧ c ≤ 'z') ∨ ('A' ≤ c ∧ c ≤ 'Z') ∨ ('0' ≤ c ∧ c ≤ '9')
      ∨ c = '-' ∨ c = '_' ∨ c = '.'
  · rw [if_pos h, if_pos (by tauto)]
    rfl
  · rw [if_neg h, if_neg (by tauto)]
    rfl

/-- C3: `KeypairName::new` is fully characterized by the spec's character
class: the empty string fails with `Empty`; a non-empty string over
`[A-Za-z0-9\-_.]` succeeds and the name retains the exact input string; a
string with an offending character fails with `BadChar` on the first such
character in left-to-right scan order. -/
theorem claim_C3 : ∀ s : String,
    (s = "" → KeypairName.new s = .error .Empty) ∧
    (s ≠ "" → (∀ c ∈ s.toList, specAllowedChar c = true) →
      KeypairName.new s = .ok ⟨s⟩) ∧
    (∀ c : Char, s.toList.find? (fun c => !(specAllowedChar c)) = some c →
      KeypairName.new s = .error (.BadChar c)) := by
  intro s
  have hfun : (fun c => is_invalid_char c) = (fun c => !(specAllowedChar c)) :=
    funext is_invalid_eq
  refine ⟨?_, ?_, ?_⟩
  · intro he
    subst he
    rfl
  · intro hne hall
    unfold KeypairName.new
    rw [isEmpty_false hne]
    simp only [Bool.false_eq_true, if_false]
    have hnone : s.toList.find? (fun c => is_invalid_char c) = none := by
      rw [hfun]
      rw [List.find?_eq_none]
      intro x hx
      rw [hall x hx]
      simp
    rw [hnone]
  · intro c hc
    have hne : s ≠ "" := by
      intro he
      subst he
      simp [List.find?] at hc
    unfold KeypairName.new
    rw [isEmpty_false hne]
    simp only [Bool.false_eq_true, if_false]
    rw [hfun, hc]

/-- C9: validation accepts names made only of dots: `"."` and `".."` are
valid `KeypairName`s, with derived filenames `..pub`/`..sec` and
`...pub`/`...sec` respectively. -/
theorem claim_C9 :
    KeypairName.new (".") = .ok ⟨"."⟩ ∧ KeypairName.new ("..") = .ok ⟨".."⟩ ∧
    KeypairName.public_filename ⟨"."⟩ = "..pub" ∧
    KeypairName.secret_filename ⟨"."⟩ = "..sec" ∧
    KeypairName.public_filename ⟨".."⟩ = "...pub" ∧
    KeypairName.secret_filename ⟨".."⟩ = "...sec" := by
  refine ⟨by decide, by decide, ?_, ?_, ?_, ?_⟩ <;> decide

/-- Witness for C1 at concrete inputs. -/
theorem claim_C1_witness :
    ((fsA.isFile (KeypairName.public_filename ⟨"a"⟩) = true ∨
      fsA.isFile (KeypairName.secret_filename ⟨"a"⟩) = true) ∧
     Keypair.save ⟨⟨"a"⟩, 1, 2⟩ fsA = (.error (.KeypairAlreadyExists ("a")), fsA)) ∧
    (Keychain.create fsEmpty ("a") 1 2 = (.ok (), fsAB) ∧
     Keychain.create fsAB ("a") 3 4 = (.error (.KeypairAlreadyExists ("a")), fsAB)) :=
  ⟨⟨Or.inl (by decide), claim_C1.1 ⟨⟨"a"⟩, 1, 2⟩ fsA (Or.inl (by decide))⟩,
   ⟨by decide, claim_C1.2 fsEmpty fsAB ("a") 1 2 3 4 (by decide)⟩⟩

/-- Witness for C5 at concrete inputs. -/
theorem claim_C5_witness :
    Keychain.create fsEmpty ("a") 1 2 = (.ok (), fsAB) ∧
    Keychain.get fsAB ("a") = .ok ⟨⟨"a"⟩, 1, 2⟩ :=
  ⟨by decide, claim_C5 fsEmpty fsAB ("a") 1 2 (by decide)⟩

/-- Witness for C4 at concrete inputs. -/
theorem claim_C4_witness :
    parse_keypair_name ("a") = .ok ⟨"a"⟩ ∧
    ¬(fsA.isFile (KeypairName.public_filename ⟨"a"⟩) = true ∧
      fsA.isFile (KeypairName.secret_filename ⟨"a"⟩) = true) ∧
    Keypair.load fsA ("a") = .error (.KeypairNotFound ("a")) :=
  ⟨by decide, by decide, (claim_C4 fsA ("a") ⟨"a"⟩ (by decide)).2.1 (by decide)⟩

theorem toOption_ok {ε α : Type} (x : Except ε α) (b : α) :
    x.toOption = some b ↔ x = .ok b := by
  cases x <;> simp [Except.toOption]

theorem assocFind_isSome_mem {β : Type} {l : List (String × β)} {p : String}
    (h : (assocFind l p).isSome = true) : p ∈ l.map Prod.fst := by
  induction l with
  | nil => simp [assocFind] at h
  | cons hd tl ih =>
    obtain ⟨a, d⟩ := hd
    by_cases hap : a = p
    · subst hap; simp
    · rw [assocFind, if_neg hap] at h
      simp [ih h]

theorem mem_candidates_pub {fs : FS} {m : String} (hm : m ≠ "")
    (h : fs.isFile (m ++ ".pub") = true) : m ∈ candidateNames fs := by
  unfold candidateNames
  rw [List.mem_dedup]
  refine List.mem_map.mpr ⟨m ++ ".pub", List.mem_filter.mpr ⟨assocFind_isSome_mem h, ?_⟩, ?_⟩
  · rw [show ext_or_empty (m ++ ".pub") = "pub" by unfold ext_or_empty; rw [rustSplitName_pub m hm]; rfl]
    decide
  · unfold file_stem
    rw [rustSplitName_pub m hm]

theorem mem_candidates_sec {fs : FS} {m : String} (hm : m ≠ "")
    (h : fs.isFile (m ++ ".sec") = true) : m ∈ candidateNames fs := by
  unfold candidateNames
  rw [List.mem_dedup]
  refine List.mem_map.mpr ⟨m ++ ".sec", List.mem_filter.mpr ⟨assocFind_isSome_mem h, ?_⟩, ?_⟩
  · rw [show ext_or_empty (m ++ ".sec") = "sec" by unfold ext_or_empty; rw [rustSplitName_sec m hm]; rfl]
    decide
  · unfold file_stem
    rw [rustSplitName_sec m hm]

theorem mem_keychainList_iff {fs : FS} {kp : Keypair} :
    kp ∈ keychainList fs ↔ ∃ m ∈ candidateNames fs, Keypair.load fs m = .ok kp := by
  unfold keychainList keypairsOf
  rw [List.mem_filterMap]
  constructor
  · rintro ⟨m, hmem, hsome⟩
    exact ⟨m, hmem, (toOption_ok _ _).mp hsome⟩
  · rintro ⟨m, hmem, hok⟩
    exact ⟨m, hmem, (toOption_ok _ _).mpr hok⟩

theorem load_mem_keychainList {fs : FS} {m : String} {kp : Keypair}
    (h : Keypair.load fs m = .ok kp) : kp ∈ keychainList fs := by
  obtain ⟨hp, hraw, hpubf, -, -, -⟩ := load_ok_char h
  have hm : m ≠ "" := (parse_ok _ _ hp).2
  refine mem_keychainList_iff.mpr ⟨m, ?_, h⟩
  apply mem_candidates_pub hm
  rw [show m ++ ".pub" = kp.name.public_filename by rw [← hraw]; rfl]
  exact hpubf

theorem load_congr {fs1 fs2 : FS} {m : String} {n : KeypairName}
    (hp : parse_keypair_name m = .ok n)
    (hpub : assocFind fs1.files n.public_filename = assocFind fs2.files n.public_filename)
    (hsec : assocFind fs1.files n.secret_filename = assocFind fs2.files n.secret_filename) :
    Keypair.load fs1 m = Keypair.load fs2 m := by
  rw [load_eval hp, load_eval hp]
  unfold FS.isFile pubKeyFromFile secKeyFromFile
  rw [hpub, hsec]

theorem load_preserved_of_other {fs fs' : FS} {n : KeypairName} {pub sec : Nat}
    (hsave : Keypair.save ⟨n, pub, sec⟩ fs = (.ok (), fs'))
    {m : String} (hm : m ≠ n.raw) :
    Keypair.load fs' m = Keypair.load fs m := by
  cases hp : parse_keypair_name m with
  | error e => unfold Keypair.load; rw [hp]
  | ok nm =>
    have hraw := (parse_ok _ _ hp).1
    obtain ⟨-, -, hlook, -, -, -⟩ := save_ok_char2 hsave
    have hne1 : nm.public_filename ≠ n.secret_filename := fun heq =>
      pubfile_ne_secfile nm.raw n.raw heq
    have hne2 : nm.public_filename ≠ n.public_filename := fun heq =>
      hm (hraw ▸ appendRightCancel heq)
    have hne3 : nm.secret_filename ≠ n.secret_filename := fun heq =>
      hm (hraw ▸ appendRightCancel heq)
    have hne4 : nm.secret_filename ≠ n.public_filename := fun heq =>
      pubfile_ne_secfile n.raw nm.raw heq.symm
    apply load_congr hp
    · rw [hlook, if_neg hne1, if_neg hne2]
    · rw [hlook, if_neg hne3, if_neg hne4]

theorem create_then_load {fs fs' : FS} {name : String} {pub sec : Nat}
    (h : Keychain.create fs name pub sec = (.ok (), fs')) :
    Keypair.load fs' name = .ok ⟨⟨name⟩, pub, sec⟩ := by
  obtain ⟨n, hp, hraw, hsave⟩ := create_ok_char h
  obtain ⟨-, -, hlook, -, -, -⟩ := save_ok_char2 hsave
  have hppns : n.public_filename ≠ n.secret_filename := pubfile_ne_secfile n.raw n.raw
  have hpe : assocFind fs'.files n.public_filename = some (.pubData pub) := by
    rw [hlook, if_neg hppns, if_pos rfl]
  have hse : assocFind fs'.files n.secret_filename = some (.secData sec) := by
    rw [hlook, if_pos rfl]
  have hpub : fs'.isFile n.public_filename = true := by
    unfold FS.isFile; rw [hpe]; rfl
  have hsec2 : fs'.isFile n.secret_filename = true := by
    unfold FS.isFile; rw [hse]; rfl
  rw [load_eval hp, if_pos (by rw [hpub, hsec2]; rfl)]
  unfold pubKeyFromFile secKeyFromFile
  rw [hpe, hse]
  simp only []
  rw [← hraw]

/-- C2: `rename` performs the create of the new name before the remove of the
old one; when the create step fails, the same error propagates out of
`rename`, the filesystem is exactly what the failed create left, and the
source keypair's two files are intact (same content, still present). -/
theorem claim_C2 : ∀ (fs fs1 : FS) (old_name new_name : String) (kp : Keypair)
    (e : KeychainError),
    Keychain.get fs old_name = .ok kp →
    Keychain.create fs new_name kp.public kp.secret = (.error e, fs1) →
    Keychain.rename fs old_name new_name = (.error e, fs1) ∧
    assocFind fs1.files kp.name.public_filename = assocFind fs.files kp.name.public_filename ∧
    assocFind fs1.files kp.name.secret_filename = assocFind fs.files kp.name.secret_filename ∧
    fs1.isFile kp.name.public_filename = true ∧
    fs1.isFile kp.name.secret_filename = true := by
  intro fs fs1 old_name new_name kp e hg hc
  obtain ⟨hp, hraw, hpubf, hsecf, -, -⟩ := load_ok_char hg
  constructor
  · unfold Keychain.rename
    rw [hg]
    simp only []
    rw [hc]
  · rcases create_error_char hc with h1 | ⟨n, hpn, hnp, hns, hw⟩
    · subst h1
      exact ⟨rfl, rfl, hpubf, hsecf⟩
    · have hlook := assocFind_writeFile hw
      have hne1 : kp.name.public_filename ≠ n.public_filename := by
        intro heq
        rw [heq, hnp] at hpubf
        simp at hpubf
      have hne2 : kp.name.secret_filename ≠ n.public_filename := by
        intro heq
        rw [heq, hnp] at hsecf
        simp at hsecf
      have e1 : assocFind fs1.files kp.name.public_filename
          = assocFind fs.files kp.name.public_filename := by
        rw [hlook, if_neg hne1]
      have e2 : assocFind fs1.files kp.name.secret_filename
          = assocFind fs.files kp.name.secret_filename := by
        rw [hlook, if_neg hne2]
      refine ⟨e1, e2, ?_, ?_⟩
      · unfold FS.isFile
        rw [e1]
        exact hpubf
      · unfold FS.isFile
        rw [e2]
        exact hsecf

/-- C6: `find` returns the first keypair in iterator order whose public key
matches, failing with `PublicKeyNotFound` when the iterator is exhausted
without a match; after a create, `find` on the created public key returns a
keypair with that name (when no pre-existing pair had that key), and `find`
on a never-stored key fails. -/
theorem claim_C6 :
    (∀ (fs : FS) (pub : Nat), fs.listErr = none →
      Keychain.find fs pub =
        match (keychainList fs).find? (fun kp => kp.public == pub) with
        | some kp => .ok kp
        | none => .error .PublicKeyNotFound) ∧
    (∀ (fs fs' : FS) (name : String) (pub sec : Nat), fs.listErr = none →
      Keychain.create fs name pub sec = (.ok (), fs') →
      (∀ kp ∈ keychainList fs, kp.public ≠ pub) →
      ∃ kp, Keychain.find fs' pub = .ok kp ∧ kp.name.raw = name) ∧
    (∀ (fs : FS) (pub : Nat), fs.listErr = none →
      (∀ kp ∈ keychainList fs, kp.public ≠ pub) →
      Keychain.find fs pub = .error .PublicKeyNotFound) := by
  refine ⟨?_, ?_, ?_⟩
  · intro fs pub hlerr
    unfold Keychain.find KeychainIter.new keychainList
    rw [hlerr]
  · intro fs fs' name pub sec hlerr h hnone
    obtain ⟨n, hp, hraw, hsave⟩ := create_ok_char h
    have hload : Keypair.load fs' name = .ok ⟨⟨name⟩, pub, sec⟩ := create_then_load h
    have hmem : (⟨⟨name⟩, pub, sec⟩ : Keypair) ∈ keychainList fs' :=
      load_mem_keychainList hload
    have hex : ∃ x ∈ keychainList fs', (x.public == pub) = true :=
      ⟨⟨⟨name⟩, pub, sec⟩, hmem, by simp⟩
    obtain ⟨kp, hfind⟩ := Option.isSome_iff_exists.mp (List.find?_isSome.mpr hex)
    have hkp_mem := List.mem_of_find?_eq_some hfind
    have hkp_pub : kp.public = pub := by simpa using List.find?_some hfind
    have hlerr2 : fs'.listErr = none := by
      obtain ⟨-, -, -, -, -, hl⟩ := save_ok_char2 hsave
      rw [hl]
      exact hlerr
    have hfindeq : Keychain.find fs' pub = .ok kp := by
      unfold Keychain.find KeychainIter.new
      rw [hlerr2]
      simp only []
      rw [show keypairsOf fs' (candidateNames fs') = keychainList fs' from rfl, hfind]
    refine ⟨kp, hfindeq, ?_⟩
    obtain ⟨m, hmcand, hmload⟩ := mem_keychainList_iff.mp hkp_mem
    have hragree := (load_ok_char hmload).2.1
    by_cases hmn : m = name
    · rw [hragree, hmn]
    · exfalso
      have hback : Keypair.load fs m = .ok kp := by
        rw [← load_preserved_of_other hsave (show m ≠ n.raw by rw [hraw]; exact hmn)]
        exact hmload
      exact hnone kp (load_mem_keychainList hback) hkp_pub
  · intro fs pub hlerr hnone
    unfold Keychain.find KeychainIter.new
    rw [hlerr]
    simp only []
    have hfn : (keypairsOf fs (candidateNames fs)).find? (fun kp => kp.public == pub)
        = none := by
      rw [List.find?_eq_none]
      intro x hx hbeq
      exact hnone x hx (by simpa using hbeq)
    rw [hfn]

/-- C8: iteration enumerates each candidate name at most once; a name whose
`.pub` or `.sec` file is present is a candidate; a keypair is yielded exactly
when some candidate name loads to it (failing loads are skipped without
aborting); a directory with `x.pub` but no `x.sec` never yields `x`; an
empty directory yields zero entries rather than an error. -/
theorem claim_C8 :
    (∀ fs : FS, (candidateNames fs).Nodup) ∧
    (∀ (fs : FS) (m : String), m ≠ "" →
      fs.isFile (m ++ ".pub") = true ∨ fs.isFile (m ++ ".sec") = true →
      m ∈ candidateNames fs) ∧
    (∀ (fs : FS) (kp : Keypair),
      kp ∈ keychainList fs ↔ ∃ m ∈ candidateNames fs, Keypair.load fs m = .ok kp) ∧
    (∀ (fs : FS) (m : String), fs.isFile (m ++ ".sec") = false →
      ∀ kp ∈ keychainList fs, kp.name.raw ≠ m) ∧
    (∀ fs : FS, fs.files = [] → fs.listErr = none →
      KeychainIter.new fs = .ok [] ∧ keychainList fs = []) := by
  refine ⟨?_, ?_, ?_, ?_, ?_⟩
  · intro fs
    exact List.nodup_dedup _
  · intro fs m hm h
    rcases h with h | h
    · exact mem_candidates_pub hm h
    · exact mem_candidates_sec hm h
  · intro fs kp
    exact mem_keychainList_iff
  · intro fs m hsec kp hkp heq
    obtain ⟨m2, hm2cand, hm2load⟩ := mem_keychainList_iff.mp hkp
    obtain ⟨-, hraw, -, hsf, -, -⟩ := load_ok_char hm2load
    rw [show kp.name.secret_filename = kp.name.raw ++ ".sec" from rfl, heq] at hsf
    rw [hsec] at hsf
    simp at hsf
  · intro fs hfiles hlerr
    have hcand : candidateNames fs = [] := by
      unfold candidateNames
      rw [hfiles]
      rfl
    constructor
    · unfold KeychainIter.new
      rw [hlerr, hcand]
    · unfold keychainList
      rw [hcand]
      rfl

theorem delete_none {kp : Keypair} {fs : FS}
    (h1 : fs.isFile kp.name.public_filename = false)
    (h2 : fs.isFile kp.name.secret_filename = false) :
    kp.delete fs = (.ok (), fs) := by
  simp [Keypair.delete, h1, h2, Except.mapError]

theorem delete_both_ok {kp : Keypair} {fs : FS}
    (h1 : fs.isFile kp.name.public_filename = true)
    (h2 : fs.isFile kp.name.secret_filename = true)
    (hr1 : assocFind fs.removeErr kp.name.public_filename = none)
    (hr2 : assocFind fs.removeErr kp.name.secret_filename = none) :
    kp.delete fs =
      (.ok (), { fs with
        files := eraseKey (eraseKey fs.files kp.name.public_filename)
          kp.name.secret_filename }) := by
  have hppsp : kp.name.public_filename ≠ kp.name.secret_filename :=
    pubfile_ne_secfile kp.name.raw kp.name.raw
  have h2e : FS.isFile { fs with files := eraseKey fs.files kp.name.public_filename }
      kp.name.secret_filename = true := by
    unfold FS.isFile
    simp only []
    rw [assocFind_eraseKey, if_neg (Ne.symm hppsp)]
    exact h2
  simp [Keypair.delete, FS.removeFile, h1, h2, hr1, hr2, h2e, Except.mapError]

theorem delete_pub_only {kp : Keypair} {fs : FS}
    (h1 : fs.isFile kp.name.public_filename = true)
    (h2 : fs.isFile kp.name.secret_filename = false)
    (hr1 : assocFind fs.removeErr kp.name.public_filename = none) :
    kp.delete fs = (.ok (), { fs with files := eraseKey fs.files kp.name.public_filename }) := by
  have hppsp : kp.name.public_filename ≠ kp.name.secret_filename :=
    pubfile_ne_secfile kp.name.raw kp.name.raw
  have h2e : FS.isFile { fs with files := eraseKey fs.files kp.name.public_filename }
      kp.name.secret_filename = false := by
    unfold FS.isFile
    simp only []
    rw [assocFind_eraseKey, if_neg (Ne.symm hppsp)]
    exact h2
  simp [Keypair.delete, FS.removeFile, h1, hr1, h2e, Except.mapError]

theorem delete_sec_only {kp : Keypair} {fs : FS}
    (h1 : fs.isFile kp.name.public_filename = false)
    (h2 : fs.isFile kp.name.secret_filename = true)
    (hr2 : assocFind fs.removeErr kp.name.secret_filename = none) :
    kp.delete fs = (.ok (), { fs with files := eraseKey fs.files kp.name.secret_filename }) := by
  simp [Keypair.delete, FS.removeFile, h1, h2, hr2, Except.mapError]

theorem delete_pubfail_secok {kp : Keypair} {fs : FS} {e1 : Nat}
    (h1 : fs.isFile kp.name.public_filename = true)
    (hr1 : assocFind fs.removeErr kp.name.public_filename = some e1)
    (h2 : fs.isFile kp.name.secret_filename = true)
    (hr2 : assocFind fs.removeErr kp.name.secret_filename = none) :
    kp.delete fs = (.error (.DeleteError kp.name.raw e1),
      { fs with files := eraseKey fs.files kp.name.secret_filename }) := by
  simp [Keypair.delete, FS.removeFile, h1, h2, hr1, hr2, Except.mapError]

theorem delete_bothfail {kp : Keypair} {fs : FS} {e1 e2 : Nat}
    (h1 : fs.isFile kp.name.public_filename = true)
    (hr1 : assocFind fs.removeErr kp.name.public_filename = some e1)
    (h2 : fs.isFile kp.name.secret_filename = true)
    (hr2 : assocFind fs.removeErr kp.name.secret_filename = some e2) :
    kp.delete fs = (.error (.DeleteError kp.name.raw e1), fs) := by
  simp [Keypair.delete, FS.removeFile, h1, h2, hr1, hr2, Except.mapError]

theorem delete_pubfail_secabsent {kp : Keypair} {fs : FS} {e1 : Nat}
    (h1 : fs.isFile kp.name.public_filename = true)
    (hr1 : assocFind fs.removeErr kp.name.public_filename = some e1)
    (h2 : fs.isFile kp.name.secret_filename = false) :
    kp.delete fs = (.error (.DeleteError kp.name.raw e1), fs) := by
  simp [Keypair.delete, FS.removeFile, h1, h2, hr1, Except.mapError]

theorem delete_secfail_pubabsent {kp : Keypair} {fs : FS} {e2 : Nat}
    (h1 : fs.isFile kp.name.public_filename = false)
    (h2 : fs.isFile kp.name.secret_filename = true)
    (hr2 : assocFind fs.removeErr kp.name.secret_filename = some e2) :
    kp.delete fs = (.error (.DeleteError kp.name.raw e2), fs) := by
  simp [Keypair.delete, FS.removeFile, h1, h2, hr2, Except.mapError]

theorem delete_secfail_pubok {kp : Keypair} {fs : FS} {e2 : Nat}
    (h1 : fs.isFile kp.name.public_filename = true)
    (hr1 : assocFind fs.removeErr kp.name.public_filename = none)
    (h2 : fs.isFile kp.name.secret_filename = true)
    (hr2 : assocFind fs.removeErr kp.name.secret_filename = some e2) :
    kp.delete fs = (.error (.DeleteError kp.name.raw e2),
      { fs with files := eraseKey fs.files kp.name.public_filename }) := by
  have hppsp : kp.name.public_filename ≠ kp.name.secret_filename :=
    pubfile_ne_secfile kp.name.raw kp.name.raw
  have h2e : FS.isFile { fs with files := eraseKey fs.files kp.name.public_filename }
      kp.name.secret_filename = true := by
    unfold FS.isFile
    simp only []
    rw [assocFind_eraseKey, if_neg (Ne.symm hppsp)]
    exact h2
  simp [Keypair.delete, FS.removeFile, h1, h2, hr1, hr2, h2e, Except.mapError]

theorem delete_err_char {kp : Keypair} {fs : FS} {e : KeychainError}
    (h : (kp.delete fs).1 = .error e) :
    ∃ u, e = .DeleteError kp.name.raw u ∧
      ((fs.isFile kp.name.public_filename = true ∧
        assocFind fs.removeErr kp.name.public_filename = some u) ∨
       (fs.isFile kp.name.secret_filename = true ∧
        assocFind fs.removeErr kp.name.secret_filename = some u)) := by
  cases h1 : fs.isFile kp.name.public_filename with
  | true =>
    cases hr1 : assocFind fs.removeErr kp.name.public_filename with
    | some e1 =>
      cases h2 : fs.isFile kp.name.secret_filename with
      | true =>
        cases hr2 : assocFind fs.removeErr kp.name.secret_filename with
        | some e2 =>
          rw [delete_bothfail h1 hr1 h2 hr2] at h
          injection h with h
          exact ⟨e1, h.symm, Or.inl ⟨rfl, rfl⟩⟩
        | none =>
          rw [delete_pubfail_secok h1 hr1 h2 hr2] at h
          injection h with h
          exact ⟨e1, h.symm, Or.inl ⟨rfl, rfl⟩⟩
      | false =>
        rw [delete_pubfail_secabsent h1 hr1 h2] at h
        injection h with h
        exact ⟨e1, h.symm, Or.inl ⟨rfl, rfl⟩⟩
    | none =>
      cases h2 : fs.isFile kp.name.secret_filename with
      | true =>
        cases hr2 : assocFind fs.removeErr kp.name.secret_filename with
        | some e2 =>
          rw [delete_secfail_pubok h1 hr1 h2 hr2] at h
          injection h with h
          exact ⟨e2, h.symm, Or.inr ⟨rfl, rfl⟩⟩
        | none =>
          rw [delete_both_ok h1 h2 hr1 hr2] at h
          simp at h
      | false =>
        rw [delete_pub_only h1 h2 hr1] at h
        simp at h
  | false =>
    cases h2 : fs.isFile kp.name.secret_filename with
    | true =>
      cases hr2 : assocFind fs.removeErr kp.name.secret_filename with
      | some e2 =>
        rw [delete_secfail_pubabsent h1 h2 hr2] at h
        injection h with h
        exact ⟨e2, h.symm, Or.inr ⟨rfl, rfl⟩⟩
      | none =>
        rw [delete_sec_only h1 h2 hr2] at h
        simp at h
    | false =>
      rw [delete_none h1 h2] at h
      simp at h

theorem delete_ok_char {kp : Keypair} {fs fs' : FS}
    (h1 : fs.isFile kp.name.public_filename = true)
    (h2 : fs.isFile kp.name.secret_filename = true)
    (h : kp.delete fs = (.ok (), fs')) :
    fs'.isFile kp.name.public_filename = false ∧
    fs'.isFile kp.name.secret_filename = false := by
  have hppsp : kp.name.public_filename ≠ kp.name.secret_filename :=
    pubfile_ne_secfile kp.name.raw kp.name.raw
  cases hr1 : assocFind fs.removeErr kp.name.public_filename with
  | some e1 =>
    cases hr2 : assocFind fs.removeErr kp.name.secret_filename with
    | some e2 => rw [delete_bothfail h1 hr1 h2 hr2] at h; simp at h
    | none => rw [delete_pubfail_secok h1 hr1 h2 hr2] at h; simp at h
  | none =>
    cases hr2 : assocFind fs.removeErr kp.name.secret_filename with
    | some e2 => rw [delete_secfail_pubok h1 hr1 h2 hr2] at h; simp at h
    | none =>
      rw [delete_both_ok h1 h2 hr1 hr2] at h
      have hfs : fs' = { fs with files := eraseKey (eraseKey fs.files
          kp.name.public_filename) kp.name.secret_filename } := by
        injection h with h1x h2x
        exact h2x.symm
      subst hfs
      constructor
      · unfold FS.isFile
        simp only []
        rw [assocFind_eraseKey, if_neg hppsp, assocFind_eraseKey, if_pos rfl]
        rfl
      · unfold FS.isFile
        simp only []
        rw [assocFind_eraseKey, if_pos rfl]
        rfl

/-- C7: after a successful `remove(name)` neither derived file remains and a
subsequent `get(name)` fails with `KeypairNotFound`; `delete` treats a
missing file as success for that half, removes whichever of the two files
exist when their removals succeed, and a failure surfaces as
`DeleteError{name, underlying}` only for an actual removal error on a
present file. -/
theorem claim_C7 :
    (∀ (fs fs' : FS) (name : String),
      Keychain.remove fs name = (.ok (), fs') →
      fs'.isFile (KeypairName.public_filename ⟨name⟩) = false ∧
      fs'.isFile (KeypairName.secret_filename ⟨name⟩) = false ∧
      Keychain.get fs' name = .error (.KeypairNotFound name)) ∧
    (∀ (kp : Keypair) (fs : FS),
      fs.isFile kp.name.public_filename = false →
      fs.isFile kp.name.secret_filename = false →
      kp.delete fs = (.ok (), fs)) ∧
    (∀ (kp : Keypair) (fs : FS),
      (fs.isFile kp.name.public_filename = true →
        assocFind fs.removeErr kp.name.public_filename = none) →
      (fs.isFile kp.name.secret_filename = true →
        assocFind fs.removeErr kp.name.secret_filename = none) →
      (kp.delete fs).1 = .ok () ∧
      (kp.delete fs).2.isFile kp.name.public_filename = false ∧
      (kp.delete fs).2.isFile kp.name.secret_filename = false) ∧
    (∀ (kp : Keypair) (fs : FS) (e : KeychainError),
      (kp.delete fs).1 = .error e →
      ∃ u, e = .DeleteError kp.name.raw u ∧
        ((fs.isFile kp.name.public_filename = true ∧
          assocFind fs.removeErr kp.name.public_filename = some u) ∨
         (fs.isFile kp.name.secret_filename = true ∧
          assocFind fs.removeErr kp.name.secret_filename = some u))) := by
  refine ⟨?_, ?_, ?_, ?_⟩
  · intro fs fs' name h
    unfold Keychain.remove at h
    cases hg : Keychain.get fs name with
    | error e => rw [hg] at h; simp at h
    | ok kp =>
      rw [hg] at h
      obtain ⟨hp, hraw, hpf, hsf, -, -⟩ := load_ok_char hg
      obtain ⟨g1, g2⟩ := delete_ok_char hpf hsf h
      have hname : kp.name = ⟨name⟩ := by rw [← hraw]
      rw [hname] at g1 g2
      refine ⟨g1, g2, ?_⟩
      have hp2 : parse_keypair_name name = .ok (⟨name⟩ : KeypairName) := by
        rw [← hname]
        exact hp
      unfold Keychain.get
      rw [load_eval hp2]
      have hb : (fs'.isFile (KeypairName.public_filename ⟨name⟩) &&
          fs'.isFile (KeypairName.secret_filename ⟨name⟩)) = false := by
        rw [g1]
        rfl
      rw [hb]
      simp only [Bool.false_eq_true, if_false]
  · intro kp fs h1 h2
    exact delete_none h1 h2
  · intro kp fs hi1 hi2
    have hppsp : kp.name.public_filename ≠ kp.name.secret_filename :=
      pubfile_ne_secfile kp.name.raw kp.name.raw
    cases h1 : fs.isFile kp.name.public_filename with
    | false =>
      cases h2 : fs.isFile kp.name.secret_filename with
      | false =>
        rw [delete_none h1 h2]
        exact ⟨rfl, h1, h2⟩
      | true =>
        rw [delete_sec_only h1 h2 (hi2 h2)]
        refine ⟨rfl, ?_, ?_⟩
        · unfold FS.isFile
          simp only []
          rw [assocFind_eraseKey, if_neg hppsp]
          exact h1
        · unfold FS.isFile
          simp only []
          rw [assocFind_eraseKey, if_pos rfl]
          rfl
    | true =>
      cases h2 : fs.isFile kp.name.secret_filename with
      | false =>
        rw [delete_pub_only h1 h2 (hi1 h1)]
        refine ⟨rfl, ?_, ?_⟩
        · unfold FS.isFile
          simp only []
          rw [assocFind_eraseKey, if_pos rfl]
          rfl
        · unfold FS.isFile
          simp only []
          rw [assocFind_eraseKey, if_neg (Ne.symm hppsp)]
          exact h2
      | true =>
        rw [delete_both_ok h1 h2 (hi1 h1) (hi2 h2)]
        refine ⟨rfl, ?_, ?_⟩
        · unfold FS.isFile
          simp only []
          rw [assocFind_eraseKey, if_neg hppsp, assocFind_eraseKey, if_pos rfl]
          rfl
        · unfold FS.isFile
          simp only []
          rw [assocFind_eraseKey, if_pos rfl]
          rfl
  · intro kp fs e h
    exact delete_err_char h

/-- C10: `delete` attempts the secret-file removal even when the public-file
removal fails (the secret file is actually removed in that case), and when
both removals fail the reported `DeleteError` carries the underlying error
of the public-file removal. -/
theorem claim_C10 : ∀ (kp : Keypair) (fs : FS) (e1 : Nat),
    fs.isFile kp.name.public_filename = true →
    fs.isFile kp.name.secret_filename = true →
    assocFind fs.removeErr kp.name.public_filename = some e1 →
    (assocFind fs.removeErr kp.name.secret_filename = none →
      (kp.delete fs).2.isFile kp.name.secret_filename = false ∧
      (kp.delete fs).1 = .error (.DeleteError kp.name.raw e1)) ∧
    (∀ e2, assocFind fs.removeErr kp.name.secret_filename = some e2 →
      (kp.delete fs).1 = .error (.DeleteError kp.name.raw e1)) := by
  intro kp fs e1 h1 h2 hr1
  constructor
  · intro hr2
    rw [delete_pubfail_secok h1 hr1 h2 hr2]
    refine ⟨?_, rfl⟩
    unfold FS.isFile
    simp only []
    rw [assocFind_eraseKey, if_pos rfl]
    rfl
  · intro e2 hr2
    rw [delete_bothfail h1 hr1 h2 hr2]

/-- Witness for C3 at concrete inputs. -/
theorem claim_C3_witness :
    KeypairName.new ("") = .error .Empty ∧
    (("ab" : String) ≠ "" ∧ KeypairName.new ("ab") = .ok ⟨"ab"⟩) ∧
    ("a b".toList.find? (fun c => !(specAllowedChar c)) = some ' ' ∧
     KeypairName.new ("a b") = .error (.BadChar ' ')) :=
  ⟨(claim_C3 ("")).1 rfl,
   ⟨by decide, (claim_C3 ("ab")).2.1 (by decide) (by decide)⟩,
   ⟨by decide, (claim_C3 ("a b")).2.2 ' ' (by decide)⟩⟩

/-- Witness for C2 at concrete inputs. -/
theorem claim_C2_witness :
    Keychain.get fsW ("a") = .ok ⟨⟨"a"⟩, 1, 2⟩ ∧
    Keychain.create fsW ("b") 1 2 = (.error (.KeypairAlreadyExists ("b")), fsW) ∧
    (Keychain.rename fsW ("a") ("b") = (.error (.KeypairAlreadyExists ("b")), fsW) ∧
     assocFind fsW.files (KeypairName.public_filename ⟨"a"⟩)
       = assocFind fsW.files (KeypairName.public_filename ⟨"a"⟩) ∧
     assocFind fsW.files (KeypairName.secret_filename ⟨"a"⟩)
       = assocFind fsW.files (KeypairName.secret_filename ⟨"a"⟩) ∧
     fsW.isFile (KeypairName.public_filename ⟨"a"⟩) = true ∧
     fsW.isFile (KeypairName.secret_filename ⟨"a"⟩) = true) :=
  ⟨by decide, by decide,
   claim_C2 fsW fsW ("a") ("b") ⟨⟨"a"⟩, 1, 2⟩ (.KeypairAlreadyExists ("b"))
     (by decide) (by decide)⟩

/-- Witness for C6 at concrete inputs. -/
theorem claim_C6_witness :
    (Keychain.find fsAB 1 =
      match (keychainList fsAB).find? (fun kp => kp.public == 1) with
      | some kp => .ok kp
      | none => .error .PublicKeyNotFound) ∧
    (∃ kp, Keychain.find fsAB 1 = .ok kp ∧ kp.name.raw = "a") ∧
    Keychain.find fsAB 9 = .error .PublicKeyNotFound :=
  ⟨claim_C6.1 fsAB 1 rfl,
   claim_C6.2.1 fsEmpty fsAB ("a") 1 2 rfl (by decide) (by decide),
   claim_C6.2.2 fsAB 9 rfl (by decide)⟩

/-- Witness for C7 at concrete inputs. -/
theorem claim_C7_witness :
    (fsEmpty.isFile (KeypairName.public_filename ⟨"a"⟩) = false ∧
     fsEmpty.isFile (KeypairName.secret_filename ⟨"a"⟩) = false ∧
     Keychain.get fsEmpty ("a") = .error (.KeypairNotFound ("a"))) ∧
    Keypair.delete ⟨⟨"b"⟩, 5, 6⟩ fsEmpty = (.ok (), fsEmpty) ∧
    ((Keypair.delete ⟨⟨"a"⟩, 1, 2⟩ fsAB).1 = .ok () ∧
     (Keypair.delete ⟨⟨"a"⟩, 1, 2⟩ fsAB).2.isFile (KeypairName.public_filename ⟨"a"⟩) = false ∧
     (Keypair.delete ⟨⟨"a"⟩, 1, 2⟩ fsAB).2.isFile (KeypairName.secret_filename ⟨"a"⟩) = false) ∧
    (∃ u, (KeychainError.DeleteError ("a") 13) = .DeleteError ("a") u ∧
      ((fsrm.isFile (KeypairName.public_filename ⟨"a"⟩) = true ∧
        assocFind fsrm.removeErr (KeypairName.public_filename ⟨"a"⟩) = some u) ∨
       (fsrm.isFile (KeypairName.secret_filename ⟨"a"⟩) = true ∧
        assocFind fsrm.removeErr (KeypairName.secret_filename ⟨"a"⟩) = some u))) :=
  ⟨claim_C7.1 fsAB fsEmpty ("a") (by decide),
   claim_C7.2.1 ⟨⟨"b"⟩, 5, 6⟩ fsEmpty (by decide) (by decide),
   claim_C7.2.2.1 ⟨⟨"a"⟩, 1, 2⟩ fsAB (fun _ => by decide) (fun _ => by decide),
   claim_C7.2.2.2 ⟨⟨"a"⟩, 1, 2⟩ fsrm (KeychainError.DeleteError ("a") 13) (by decide)⟩

/-- Witness for C8 at concrete inputs. -/
theorem claim_C8_witness :
    ("a" ∈ candidateNames fsA) ∧
    (∀ kp ∈ keychainList fsA, kp.name.raw ≠ "a") ∧
    (KeychainIter.new fsEmpty = .ok [] ∧ keychainList fsEmpty = []) :=
  ⟨claim_C8.2.1 fsA ("a") (by decide) (Or.inl (by decide)),
   claim_C8.2.2.2.1 fsA ("a") (by decide),
   claim_C8.2.2.2.2 fsEmpty rfl rfl⟩

/-- Witness for C10 at concrete inputs. -/
theorem claim_C10_witness :
    ((Keypair.delete ⟨⟨"a"⟩, 1, 2⟩ fsrm).2.isFile (KeypairName.secret_filename ⟨"a"⟩) = false ∧
     (Keypair.delete ⟨⟨"a"⟩, 1, 2⟩ fsrm).1 = .error (.DeleteError ("a") 13)) ∧
    (Keypair.delete ⟨⟨"a"⟩, 1, 2⟩ fsrm2).1 = .error (.DeleteError ("a") 13) :=
  ⟨(claim_C10 ⟨⟨"a"⟩, 1, 2⟩ fsrm 13 (by decide) (by decide) (by decide)).1 (by decide),
   (claim_C10 ⟨⟨"a"⟩, 1, 2⟩ fsrm2 13 (by decide) (by decide) (by decide)).2 14 (by decide)⟩

end Saltlick
